import Mathlib

/-!
Verification development for the route-matching and notification-lifecycle
core of a taxi listings bot.

The Lean definitions below are a shallow embedding of the Python sources:

* `services/keys_generator.py`  — key extraction from free route text;
* `services/matching.py`        — subscription and listing matching;
* `services/notifications_cleaner.py` — ledger cleanup on pause / delete;
* `database/models.py`          — the data model and its unique constraints;
* `handlers/my_posts.py`, `handlers/callbacks.py`, `handlers/subscriptions.py`
                                — the interactive lifecycle actions;
* `workers/expiration.py`       — the timer-driven expiration sweep.

Database rows are lists of records, sessions are explicit state passing,
and the Telegram transport is external (its message ids enter the model as
parameters; its failures never influence the modeled control flow, exactly
as in the source, where transport errors are caught and logged).
Presentation-only columns (free-text places, price, seats, timestamps of
creation) are omitted: no modeled branch reads them.
-/

/-! ## Key extractor (`services/keys_generator.py`) -/

/-- Letters kept by the regex class
`[a-zA-Zа-яА-ЯёЁіІїЇєЄғҒқҚңҢөӨүҮһҺ]` in `generate_keys`. -/
def routeLetters : List Char :=
  ['A', 'B', 'C', 'D', 'E', 'F', 'G', 'H', 'I', 'J', 'K', 'L', 'M',
   'N', 'O', 'P', 'Q', 'R', 'S', 'T', 'U', 'V', 'W', 'X', 'Y', 'Z',
   'a', 'b', 'c', 'd', 'e', 'f', 'g', 'h', 'i', 'j', 'k', 'l', 'm',
   'n', 'o', 'p', 'q', 'r', 's', 't', 'u', 'v', 'w', 'x', 'y', 'z',
   'А', 'Б', 'В', 'Г', 'Д', 'Е', 'Ж', 'З', 'И', 'Й', 'К', 'Л', 'М',
   'Н', 'О', 'П', 'Р', 'С', 'Т', 'У', 'Ф', 'Х', 'Ц', 'Ч', 'Ш', 'Щ',
   'Ъ', 'Ы', 'Ь', 'Э', 'Ю', 'Я', 'а', 'б', 'в', 'г', 'д', 'е', 'ж',
   'з', 'и', 'й', 'к', 'л', 'м', 'н', 'о', 'п', 'р', 'с', 'т', 'у',
   'ф', 'х', 'ц', 'ч', 'ш', 'щ', 'ъ', 'ы', 'ь', 'э', 'ю', 'я', 'Ё',
   'І', 'Ї', 'Є', 'Ғ', 'Қ', 'Ң', 'Ө', 'Ү', 'Һ', 'ё', 'і', 'ї', 'є',
   'ғ', 'қ', 'ң', 'ө', 'ү', 'һ']

/-- The lowercase members of `routeLetters`. -/
def lowerRouteLetters : List Char :=
  ['a', 'b', 'c', 'd', 'e', 'f', 'g', 'h', 'i', 'j', 'k', 'l', 'm',
   'n', 'o', 'p', 'q', 'r', 's', 't', 'u', 'v', 'w', 'x', 'y', 'z',
   'а', 'б', 'в', 'г', 'д', 'е', 'ж', 'з', 'и', 'й', 'к', 'л', 'м',
   'н', 'о', 'п', 'р', 'с', 'т', 'у', 'ф', 'х', 'ц', 'ч', 'ш', 'щ',
   'ъ', 'ы', 'ь', 'э', 'ю', 'я', 'ё', 'і', 'ї', 'є', 'ғ', 'қ', 'ң',
   'ө', 'ү', 'һ']

/-- Python `str.lower()` restricted to the characters that can survive the
regex substitution in `generate_keys` (letters of the class and
whitespace); on every other character the model never applies it. -/
def pyLower (c : Char) : Char :=
  match c with
  | 'A' => 'a' | 'B' => 'b' | 'C' => 'c' | 'D' => 'd'
  | 'E' => 'e' | 'F' => 'f' | 'G' => 'g' | 'H' => 'h'
  | 'I' => 'i' | 'J' => 'j' | 'K' => 'k' | 'L' => 'l'
  | 'M' => 'm' | 'N' => 'n' | 'O' => 'o' | 'P' => 'p'
  | 'Q' => 'q' | 'R' => 'r' | 'S' => 's' | 'T' => 't'
  | 'U' => 'u' | 'V' => 'v' | 'W' => 'w' | 'X' => 'x'
  | 'Y' => 'y' | 'Z' => 'z' | 'А' => 'а' | 'Б' => 'б'
  | 'В' => 'в' | 'Г' => 'г' | 'Д' => 'д' | 'Е' => 'е'
  | 'Ж' => 'ж' | 'З' => 'з' | 'И' => 'и' | 'Й' => 'й'
  | 'К' => 'к' | 'Л' => 'л' | 'М' => 'м' | 'Н' => 'н'
  | 'О' => 'о' | 'П' => 'п' | 'Р' => 'р' | 'С' => 'с'
  | 'Т' => 'т' | 'У' => 'у' | 'Ф' => 'ф' | 'Х' => 'х'
  | 'Ц' => 'ц' | 'Ч' => 'ч' | 'Ш' => 'ш' | 'Щ' => 'щ'
  | 'Ъ' => 'ъ' | 'Ы' => 'ы' | 'Ь' => 'ь' | 'Э' => 'э'
  | 'Ю' => 'ю' | 'Я' => 'я' | 'Ё' => 'ё' | 'І' => 'і'
  | 'Ї' => 'ї' | 'Є' => 'є' | 'Ғ' => 'ғ' | 'Қ' => 'қ'
  | 'Ң' => 'ң' | 'Ө' => 'ө' | 'Ү' => 'ү' | 'Һ' => 'һ'
  | d => d

/-- The characters Python treats as whitespace: matched by `\s` in the
regex of `generate_keys` and used as separators by `str.split()`. -/
def pySpaceChars : List Char :=
  ['\u0009', '\u000a', '\u000b', '\u000c', '\u000d', '\u001c', '\u001d', '\u001e',
   '\u001f', '\u0020', '\u0085', '\u00a0', '\u1680', '\u2000', '\u2001', '\u2002',
   '\u2003', '\u2004', '\u2005', '\u2006', '\u2007', '\u2008', '\u2009', '\u200a',
   '\u2028', '\u2029', '\u202f', '\u205f', '\u3000']

/-- Membership in the regex letter class. -/
def isRouteLetter (c : Char) : Bool := routeLetters.contains c

/-- Membership in the lowercase letter set. -/
def isLowerRouteLetter (c : Char) : Bool := lowerRouteLetters.contains c

/-- Python whitespace test. -/
def isPySpace (c : Char) : Bool := pySpaceChars.contains c

/-- One character of `re.sub(r'[^...letters...\s]', ' ', text)`: a letter
of the class or a whitespace character stays, everything else becomes a
space. -/
def cleanChar (c : Char) : Char :=
  if isRouteLetter c || isPySpace c then c else ' '

/-- Splitter for Python `str.split()` with no arguments: accumulate the
current word (reversed) and cut at every whitespace character, dropping
empty chunks. -/
def splitWSAux : List Char → List Char → List (List Char)
  | [], acc => if acc.isEmpty then [] else [acc.reverse]
  | c :: cs, acc =>
    if isPySpace c then
      if acc.isEmpty then splitWSAux cs []
      else acc.reverse :: splitWSAux cs []
    else splitWSAux cs (c :: acc)

/-- Python `str.split()`: maximal runs of non-whitespace characters. -/
def splitWS (cs : List Char) : List (List Char) := splitWSAux cs []

/-- The seen-set loop of `generate_keys`: drop every key already seen,
keep the first occurrence of each. -/
def dedupKeysAux : List String → List String → List String
  | [], _ => []
  | k :: ks, seen =>
    if seen.contains k then dedupKeysAux ks seen
    else k :: dedupKeysAux ks (k :: seen)

/-- De-duplication preserving first-seen order (the `seen` loop of
`generate_keys`). -/
def dedupKeys (ks : List String) : List String := dedupKeysAux ks []

/-- `generate_keys` of `services/keys_generator.py`: replace every
non-letter non-whitespace character by a space, lowercase, split on
whitespace, keep words of length at least 2, de-duplicate preserving
order. -/
def generate_keys (text : String) : List String :=
  let text_clean := text.data.map cleanChar
  let words := splitWS (text_clean.map pyLower)
  let keys := words.filter (fun w => 2 ≤ w.length)
  dedupKeys (keys.map (fun w => String.mk w))

/-- `validate_route_keys` of `services/keys_generator.py`: both legs must
have at least one key.  (Defined in the source but never called by any
creation path.) -/
def validate_route_keys (keys_from keys_to : List String) : Bool :=
  decide (0 < keys_from.length) && decide (0 < keys_to.length)

/-! ## Data model (`database/models.py`) -/

/-- A row of `posts`.  Fields that no modeled branch reads (free-text
places, price, seats, creation time) are omitted.  `expires_at` is a
timestamp in minutes. -/
structure Post where
  id : Nat
  author_id : Nat
  role : String
  keys_from : List String
  keys_to : List String
  status : String
  channel_message_id : Option Nat
  expires_at : Int
deriving DecidableEq, Repr

/-- A row of `subscriptions`. -/
structure Subscription where
  id : Nat
  user_id : Nat
  keys_from : List String
  keys_to : List String
deriving DecidableEq, Repr

/-- A row of `notifications_log`; the table carries the composite unique
constraint `uq_notification` on `(post_id, recipient_id)`. -/
structure NotificationLog where
  post_id : Nat
  recipient_id : Nat
  notification_message_id : Option Nat
  recipient_telegram_id : Option Nat
deriving DecidableEq, Repr

/-- The single logical store: the three shared mutable tables. -/
structure DB where
  posts : List Post
  subs : List Subscription
  nlog : List NotificationLog
deriving DecidableEq, Repr

/-! ## Match evaluator (`services/matching.py`) -/

/-- Python `set(a).issubset(set(b))` on key arrays. -/
def subsetKeys (a b : List String) : Bool := a.all (fun k => b.contains k)

/-- `check_subscription_match`: every subscription key must be present in
the corresponding leg of the post, on both legs. -/
def check_subscription_match
    (keys_from_sub keys_to_sub keys_from_post keys_to_post : List String) : Bool :=
  subsetKeys keys_from_sub keys_from_post && subsetKeys keys_to_sub keys_to_post

/-- `find_matching_subscriptions`: scan all subscriptions of other users
and keep the owners whose both legs are subsets of the post's legs. -/
def find_matching_subscriptions (db : DB) (post : Post) : List Nat :=
  ((db.subs.filter (fun s => s.user_id != post.author_id)).filter
    (fun s => subsetKeys s.keys_from post.keys_from &&
              subsetKeys s.keys_to post.keys_to)).map (fun s => s.user_id)

/-- Role flip of `find_matching_posts`: a driver is matched against
passengers and vice versa. -/
def oppositeRole (role : String) : String :=
  if role == "driver" then "passenger" else "driver"

/-- `find_matching_posts`: active posts of the opposite role by another
author whose route matches in the same direction — either all keys of the
current post are in the candidate, or all keys of the candidate are in
the current post, leg by leg. -/
def find_matching_posts (db : DB) (post : Post) : List Post :=
  (db.posts.filter (fun c =>
      c.role == oppositeRole post.role &&
      c.status == "active" &&
      c.author_id != post.author_id)).filter
    (fun c =>
      (subsetKeys post.keys_from c.keys_from && subsetKeys post.keys_to c.keys_to) ||
      (subsetKeys c.keys_from post.keys_from && subsetKeys c.keys_to post.keys_to))

/-- `get_users_to_notify`: filter out the recipients that already have a
ledger entry for this post. -/
def get_users_to_notify (nlog : List NotificationLog) (post_id : Nat)
    (matching_user_ids : List Nat) : List Nat :=
  matching_user_ids.filter
    (fun uid => !(nlog.any (fun e => e.post_id == post_id && e.recipient_id == uid)))

/-- `log_notification` under the store-level constraint `uq_notification`
of `database/models.py`: an insert that would duplicate the pair
`(post_id, recipient_id)` is rejected by the store and the ledger is left
unchanged (the duplicate attempt is swallowed). -/
def log_notification (nlog : List NotificationLog) (e : NotificationLog) :
    List NotificationLog :=
  if nlog.any (fun x => x.post_id == e.post_id && x.recipient_id == e.recipient_id)
  then nlog
  else nlog ++ [e]

/-- One match-discovery dispatch run for a post: the candidates are first
filtered against the ledger (`get_users_to_notify`), then each dispatch
records its entry through the constrained insert. -/
def dispatchRun (nlog : List NotificationLog) (post_id : Nat)
    (matching_user_ids : List Nat) : List NotificationLog :=
  (get_users_to_notify nlog post_id matching_user_ids).foldl
    (fun acc uid =>
      log_notification acc
        { post_id := post_id, recipient_id := uid,
          notification_message_id := none, recipient_telegram_id := none })
    nlog

/-- Number of ledger entries for a `(post, recipient)` pair. -/
def countPair (nlog : List NotificationLog) (post_id recipient_id : Nat) : Nat :=
  (nlog.filter (fun e => e.post_id == post_id && e.recipient_id == recipient_id)).length

/-! ## Ledger cleanup (`services/notifications_cleaner.py`) -/

/-- `delete_notifications_for_post`: remove every ledger row of the given
post (the per-message Telegram retraction is best-effort and external). -/
def delete_notifications_for_post (nlog : List NotificationLog) (post_id : Nat) :
    List NotificationLog :=
  nlog.filter (fun e => !(e.post_id == post_id))

/-- `delete_notifications_received_by_author`: remove every ledger row
whose recipient is the given author, regardless of which post it is for. -/
def delete_notifications_received_by_author (nlog : List NotificationLog)
    (author_id : Nat) : List NotificationLog :=
  nlog.filter (fun e => !(e.recipient_id == author_id))

/-! ## Listing lifecycle (`handlers/my_posts.py`, `handlers/callbacks.py`) -/

/-- Lifetime of a listing in minutes (`config.POST_LIFETIME_MINUTES`). -/
def POST_LIFETIME_MINUTES : Int := 60

/-- Row lookup by primary key. -/
def findPost (db : DB) (post_id : Nat) : Option Post :=
  db.posts.find? (fun p => p.id == post_id)

/-- Guard used by resume / extend: does the author have another active
post? -/
def hasOtherActivePost (db : DB) (author_id post_id : Nat) : Bool :=
  db.posts.any (fun q =>
    q.author_id == author_id && q.status == "active" && !(q.id == post_id))

/-- The `pause` branch of `handle_post_action`: set the status to paused,
drop the channel message, then delete the ledger entries for this post
and the ledger entries the author personally received. -/
def pausePost (db : DB) (post_id : Nat) : DB :=
  match findPost db post_id with
  | none => db
  | some p =>
    { db with
      posts := db.posts.map (fun q =>
        if q.id == post_id then { q with status := "paused", channel_message_id := none }
        else q),
      nlog := delete_notifications_received_by_author
        (delete_notifications_for_post db.nlog post_id) p.author_id }

/-- The row update of the `delete` branch: `post.status = "deleted"` on
the selected row. -/
def markDeleted (post_id : Nat) (q : Post) : Post :=
  if q.id == post_id then { q with status := "deleted" } else q

/-- The `delete` branch of `handle_post_action`: delete the ledger
entries for this post and those received by the author, then mark the
post deleted.  The handler performs no check of the current status. -/
def deletePost (db : DB) (post_id : Nat) : DB :=
  match findPost db post_id with
  | none => db
  | some p =>
    { db with
      posts := db.posts.map (markDeleted post_id),
      nlog := delete_notifications_received_by_author
        (delete_notifications_for_post db.nlog post_id) p.author_id }

/-- The `resume` branch of `handle_post_action`: refused with a conflict
when the author already has another active post; otherwise the post goes
active and is re-published (`msg` is the new channel message id coming
back from the transport, `none` when publishing failed). -/
def resumePost (db : DB) (post_id : Nat) (msg : Option Nat) : DB × Bool :=
  match findPost db post_id with
  | none => (db, false)
  | some p =>
    if hasOtherActivePost db p.author_id post_id then (db, false)
    else
      ({ db with
         posts := db.posts.map (fun q =>
           if q.id == post_id then
             { q with status := "active",
                      channel_message_id :=
                        match msg with
                        | some m => some m
                        | none => q.channel_message_id }
           else q) }, true)

/-- The `extend` branch of `handle_post_action`: the conflict check runs
only when the post is currently paused; in every other status the
deadline is pushed forward and the post is made active unconditionally. -/
def extendPostAction (db : DB) (post_id : Nat) (now : Int) : DB × Bool :=
  match findPost db post_id with
  | none => (db, false)
  | some p =>
    if p.status == "paused" && hasOtherActivePost db p.author_id post_id then (db, false)
    else
      ({ db with
         posts := db.posts.map (fun q =>
           if q.id == post_id then
             { q with expires_at := now + POST_LIFETIME_MINUTES, status := "active" }
           else q) }, true)

/-- `extend_post` of `workers/expiration.py`: reset the deadline and
force the status to active, with no conflict check at all. -/
def extend_post (db : DB) (post_id : Nat) (now minutes : Int) : DB × Bool :=
  match findPost db post_id with
  | none => (db, false)
  | some _ =>
    ({ db with
       posts := db.posts.map (fun q =>
         if q.id == post_id then
           { q with expires_at := now + minutes, status := "active" }
         else q) }, true)

/-- `recreate_post` of `handlers/callbacks.py`: refuse when the user
already has any active post; otherwise insert a fresh active copy of the
old post with a new deadline. -/
def recreatePost (db : DB) (old_post_id user_id new_id : Nat) (now : Int)
    (msg : Option Nat) : DB × Bool :=
  match findPost db old_post_id with
  | none => (db, false)
  | some old =>
    if db.posts.any (fun q => q.author_id == user_id && q.status == "active")
    then (db, false)
    else
      ({ db with
         posts := db.posts ++
           [{ id := new_id, author_id := user_id, role := old.role,
              keys_from := old.keys_from, keys_to := old.keys_to,
              status := "active", channel_message_id := msg,
              expires_at := now + POST_LIFETIME_MINUTES }] }, true)

/-! ## Subscription creation (`handlers/subscriptions.py`) -/

/-- The state gathered by the add-subscription dialogue before
`confirm_subscription` runs. -/
structure SubFormData where
  user_id : Nat
  keys_from : List String
  keys_to : List String
deriving DecidableEq, Repr

/-- `confirm_subscription`: reject an exact duplicate of
`(user_id, keys_from, keys_to)` (the explicit check, backed by the unique
constraint `uq_subscription_route`); otherwise store the new row.  No
other validation is performed. -/
def confirm_subscription (subs : List Subscription) (d : SubFormData)
    (new_id : Nat) : List Subscription × Bool :=
  if subs.any (fun s =>
      s.user_id == d.user_id && s.keys_from == d.keys_from && s.keys_to == d.keys_to)
  then (subs, false)
  else (subs ++ [{ id := new_id, user_id := d.user_id,
                   keys_from := d.keys_from, keys_to := d.keys_to }], true)

/-- The full add-subscription flow: the dialogue derives the key-sets
with `generate_keys` from the two route texts and hands them to
`confirm_subscription` unchecked. -/
def addSubscriptionFlow (subs : List Subscription) (user_id : Nat)
    (from_text to_text : String) (new_id : Nat) : List Subscription × Bool :=
  confirm_subscription subs
    { user_id := user_id,
      keys_from := generate_keys from_text,
      keys_to := generate_keys to_text } new_id

/-! ## Expiration sweep (`workers/expiration.py`) -/

/-- Pass 1 of `check_expired_posts` on one row: an active post past its
deadline becomes expired (the channel edit and the author notification
are external side effects). -/
def expireStep (now : Int) (p : Post) : Post :=
  if p.status == "active" && decide (p.expires_at < now)
  then { p with status := "expired" }
  else p

/-- Pass 2 of `check_expired_posts` on one row: an expired post whose
deadline lies more than 15 minutes in the past and that still has a
channel message gets the message purged and the reference cleared. -/
def purgeStep (now : Int) (p : Post) : Post :=
  if p.status == "expired" && decide (p.expires_at < now - 15) &&
     p.channel_message_id.isSome
  then { p with channel_message_id := none }
  else p

/-- `check_expired_posts`, one sweep tick at time `now`: pass 1 over all
posts, then pass 2 over the result.  The ledger and the subscriptions are
never touched. -/
def check_expired_posts (db : DB) (now : Int) : DB :=
  { db with posts := (db.posts.map (expireStep now)).map (purgeStep now) }

/-- The combined effect of one sweep tick on a single row. -/
def tickPost (now : Int) (p : Post) : Post := purgeStep now (expireStep now p)

/-! ## Helper lemmas -/

/-- `subsetKeys` is the subset relation on the underlying sets. -/
theorem subsetKeys_iff (a b : List String) :
    subsetKeys a b = true ↔ ∀ k ∈ a, k ∈ b := by
  simp [subsetKeys, List.all_eq_true, List.contains, List.elem_iff]

/-! ## C1: subscription matching -/

/-- Claim C1: `check_subscription_match` is true iff every origin key of
the subscription occurs among the post's origin keys and every
destination key occurs among the post's destination keys (so it is false
whenever either leg has an absent key), and
`find_matching_subscriptions` returns exactly the owners of such
subscriptions among other users; the two route scenarios of the
specification evaluate accordingly. -/
theorem c1_subscription_match_iff :
    (∀ kfs kts kfp ktp : List String,
       check_subscription_match kfs kts kfp ktp = true ↔
         ((∀ k ∈ kfs, k ∈ kfp) ∧ (∀ k ∈ kts, k ∈ ktp))) ∧
    (∀ db post uid, uid ∈ find_matching_subscriptions db post ↔
       ∃ s, s ∈ db.subs ∧ s.user_id = uid ∧ s.user_id ≠ post.author_id ∧
         (∀ k ∈ s.keys_from, k ∈ post.keys_from) ∧
         (∀ k ∈ s.keys_to, k ∈ post.keys_to)) ∧
    check_subscription_match ["south", "bazaar"] ["north"] ["bazaar"] ["north"] = false ∧
    check_subscription_match ["bazaar"] ["north"] ["north", "bazaar"] ["north", "center"] = true := by
  refine ⟨?_, ?_, by decide, by decide⟩
  · intro kfs kts kfp ktp
    simp [check_subscription_match, Bool.and_eq_true, subsetKeys_iff]
  · intro db post uid
    simp only [find_matching_subscriptions, List.mem_map, List.mem_filter,
      Bool.and_eq_true, subsetKeys_iff, bne_iff_ne, ne_eq]
    constructor
    · rintro ⟨s, ⟨⟨hs, hne⟩, hf, ht⟩, rfl⟩
      exact ⟨s, hs, rfl, hne, hf, ht⟩
    · rintro ⟨s, hs, rfl, hne, hf, ht⟩
      exact ⟨s, ⟨⟨hs, hne⟩, hf, ht⟩, rfl⟩

/-! ## C2: opposite-role listing matching -/

/-- Listing A of the reversed-direction scenario: offer with origin
`{bazaar}`, destination `{north}`. -/
def c2_post_A : Post :=
  { id := 1, author_id := 10, role := "driver", keys_from := ["bazaar"],
    keys_to := ["north"], status := "active", channel_message_id := none,
    expires_at := 0 }

/-- Listing B of the reversed-direction scenario: seek with origin
`{north}`, destination `{bazaar}`. -/
def c2_post_B : Post :=
  { id := 2, author_id := 20, role := "passenger", keys_from := ["north"],
    keys_to := ["bazaar"], status := "active", channel_message_id := none,
    expires_at := 0 }

/-- Store holding only listing B. -/
def c2_db : DB := { posts := [c2_post_B], subs := [], nlog := [] }

/-- Claim C2: a candidate is returned by `find_matching_posts` iff it is
an active post of the opposite role by another author and the key-sets
are same-direction subsets (in one or the other direction); in
particular the reversed-direction pair bazaar→north / north→bazaar does
not match. -/
theorem c2_listings_match_iff :
    (∀ db post c, c ∈ find_matching_posts db post ↔
       (c ∈ db.posts ∧ c.role = oppositeRole post.role ∧ c.status = "active" ∧
        c.author_id ≠ post.author_id ∧
        (((∀ k ∈ post.keys_from, k ∈ c.keys_from) ∧
          (∀ k ∈ post.keys_to, k ∈ c.keys_to)) ∨
         ((∀ k ∈ c.keys_from, k ∈ post.keys_from) ∧
          (∀ k ∈ c.keys_to, k ∈ post.keys_to))))) ∧
    find_matching_posts c2_db c2_post_A = [] := by
  refine ⟨?_, by decide⟩
  intro db post c
  simp only [find_matching_posts, List.mem_filter, Bool.and_eq_true,
    Bool.or_eq_true, subsetKeys_iff, beq_iff_eq, bne_iff_ne, ne_eq]
  tauto

/-! ## C5: empty key-sets are not rejected at creation -/

/-- Claim C5 (failing input): the route texts `"12"` and `"34"` produce
empty key-sets, `validate_route_keys` would reject them but is never
called, and the add-subscription flow stores the subscription row with
both key-sets empty instead of rejecting it. -/
theorem c5_empty_keys_subscription_stored :
    generate_keys "12" = [] ∧ generate_keys "34" = [] ∧
    validate_route_keys (generate_keys "12") (generate_keys "34") = false ∧
    (addSubscriptionFlow [] 7 "12" "34" 1).2 = true ∧
    (addSubscriptionFlow [] 7 "12" "34" 1).1 =
      [{ id := 1, user_id := 7, keys_from := [], keys_to := [] }] := by
  decide

/-! ## C9: the sweep never touches the ledger -/

/-- Store used to contrast the sweep with pause and delete: one post and
one ledger entry about it. -/
def c9_db : DB :=
  { posts := [{ id := 1, author_id := 10, role := "driver",
                keys_from := ["osh"], keys_to := ["bazar"], status := "active",
                channel_message_id := some 77, expires_at := 0 }],
    subs := [],
    nlog := [{ post_id := 1, recipient_id := 5,
               notification_message_id := some 900,
               recipient_telegram_id := some 500 }] }

/-- Claim C9: a sweep tick never deletes a Notification Ledger entry (nor
a subscription) — expiring is a posts-only change — whereas pause and
delete do revoke ledger entries, as the contrast store shows. -/
theorem c9_sweep_preserves_ledger :
    (∀ db now, (check_expired_posts db now).nlog = db.nlog ∧
               (check_expired_posts db now).subs = db.subs) ∧
    (pausePost c9_db 1).nlog ≠ c9_db.nlog ∧
    (deletePost c9_db 1).nlog ≠ c9_db.nlog := by
  refine ⟨fun db now => ⟨rfl, rfl⟩, by decide, by decide⟩

/-! ## C3: at most one ledger entry per (listing, recipient) -/

/-- A fold step that keeps an invariant keeps it over the whole fold. -/
theorem foldl_invariant {α β : Type} (P : α → Prop) (f : α → β → α)
    (step : ∀ a b, P a → P (f a b)) :
    ∀ (l : List β) (a : α), P a → P (l.foldl f a) := by
  intro l
  induction l with
  | nil => intro a ha; simpa using ha
  | cons b t ih => intro a ha; simpa using ih (f a b) (step a b ha)

/-- The constrained insert keeps every pair count at most one. -/
theorem countPair_log_notification (nlog : List NotificationLog) (e : NotificationLog)
    (h : ∀ pid uid, countPair nlog pid uid ≤ 1) :
    ∀ pid uid, countPair (log_notification nlog e) pid uid ≤ 1 := by
  intro pid uid
  unfold log_notification
  split
  · exact h pid uid
  · rename_i hno
    rw [countPair, List.filter_append, List.length_append]
    by_cases he : (e.post_id == pid && e.recipient_id == uid) = true
    · have h0 : nlog.filter (fun x => x.post_id == pid && x.recipient_id == uid) = [] := by
        rw [List.filter_eq_nil_iff]
        intro x hx hx2
        apply hno
        rw [List.any_eq_true]
        refine ⟨x, hx, ?_⟩
        simp only [Bool.and_eq_true, beq_iff_eq] at hx2 he ⊢
        exact ⟨hx2.1.trans he.1.symm, hx2.2.trans he.2.symm⟩
      rw [h0]
      simp [List.filter, he]
    · have h1 : [e].filter (fun x => x.post_id == pid && x.recipient_id == uid) = [] := by
        simp [List.filter, he]
      rw [h1]
      simpa using h pid uid

/-- One dispatch run keeps every pair count at most one. -/
theorem countPair_dispatchRun (nlog : List NotificationLog) (post_id : Nat)
    (uids : List Nat) (h : ∀ pid uid, countPair nlog pid uid ≤ 1) :
    ∀ pid uid, countPair (dispatchRun nlog post_id uids) pid uid ≤ 1 := by
  unfold dispatchRun
  exact foldl_invariant (fun L => ∀ pid uid, countPair L pid uid ≤ 1) _
    (fun a b ha => countPair_log_notification a _ ha) _ nlog h

/-- Claim C3: starting from a ledger with at most one entry per
`(listing, recipient)` pair, any number of match-discovery runs (each
filtering candidates through `get_users_to_notify` and recording through
the unique-constrained insert) leaves at most one entry per pair. -/
theorem c3_ledger_at_most_one (runs : List (Nat × List Nat))
    (nlog : List NotificationLog)
    (h : ∀ pid uid, countPair nlog pid uid ≤ 1) :
    ∀ pid uid,
      countPair (runs.foldl (fun acc r => dispatchRun acc r.1 r.2) nlog) pid uid ≤ 1 :=
  foldl_invariant (fun L => ∀ pid uid, countPair L pid uid ≤ 1)
    (fun acc r => dispatchRun acc r.1 r.2)
    (fun a r ha => countPair_dispatchRun a r.1 r.2 ha) runs nlog h

/-- Witness for C3: two identical discovery runs for listing 1 (a resume
repeated twice) leave a single entry for the pair (1, 5). -/
theorem c3_ledger_at_most_one_witness :
    countPair
      (([((1 : Nat), [5, 6]), (1, [5, 6])]).foldl
        (fun acc r => dispatchRun acc r.1 r.2) []) 1 5 ≤ 1 :=
  c3_ledger_at_most_one [(1, [5, 6]), (1, [5, 6])] []
    (fun pid uid => by simp [countPair]) 1 5

/-! ## C4: what pause removes from the ledger -/

/-- Store with two listings by different authors and one ledger entry:
listing 2 was notified to user 10, the author of listing 1. -/
def c4_db : DB :=
  { posts := [{ id := 1, author_id := 10, role := "driver", keys_from := ["osh"],
                keys_to := ["bazar"], status := "active",
                channel_message_id := some 3, expires_at := 0 },
              { id := 2, author_id := 20, role := "passenger", keys_from := ["osh"],
                keys_to := ["bazar"], status := "active",
                channel_message_id := some 4, expires_at := 0 }],
    subs := [],
    nlog := [{ post_id := 2, recipient_id := 10,
               notification_message_id := some 5,
               recipient_telegram_id := some 100 }] }

/-- Claim C4 as stated is false: pausing listing 1 removes a ledger entry
whose listing id is 2 (it was received by listing 1's author). -/
theorem c4_pause_removes_foreign_entry :
    (∃ e ∈ c4_db.nlog, e.post_id ≠ 1) ∧ (pausePost c4_db 1).nlog = [] := by
  decide

/-- Claim C4 amended: pausing a listing removes exactly the ledger
entries whose listing id equals the paused listing's id, plus the
entries whose recipient is the paused listing's author; every other
entry survives. -/
theorem c4_pause_ledger_amended (db : DB) (pid : Nat) (p : Post)
    (h : findPost db pid = some p) :
    (pausePost db pid).nlog =
      db.nlog.filter
        (fun e => !(e.post_id == pid) && !(e.recipient_id == p.author_id)) := by
  unfold pausePost
  rw [h]
  simp only [delete_notifications_received_by_author, delete_notifications_for_post,
    List.filter_filter]
  exact List.filter_congr (fun e _ => by
    cases hp : e.post_id == pid <;> cases ha : e.recipient_id == p.author_id <;>
      simp [hp, ha])

/-- Witness for C4 (amended): pausing listing 1 in the two-listing store
filters the ledger by both conditions. -/
theorem c4_pause_ledger_witness :
    (pausePost c4_db 1).nlog =
      c4_db.nlog.filter (fun e => !(e.post_id == 1) && !(e.recipient_id == 10)) :=
  c4_pause_ledger_amended c4_db 1
    { id := 1, author_id := 10, role := "driver", keys_from := ["osh"],
      keys_to := ["bazar"], status := "active",
      channel_message_id := some 3, expires_at := 0 } (by decide)

/-! ## C7: the single-active-listing conflict guard -/

/-- Store in which author 10 has an expired listing 1 and an active
listing 2. -/
def c7_db : DB :=
  { posts := [{ id := 1, author_id := 10, role := "driver", keys_from := ["osh"],
                keys_to := ["bazar"], status := "expired",
                channel_message_id := none, expires_at := 0 },
              { id := 2, author_id := 10, role := "driver", keys_from := ["osh"],
                keys_to := ["bazar"], status := "active",
                channel_message_id := some 8, expires_at := 100 }],
    subs := [], nlog := [] }

/-- Claim C7 as stated is false: extending the expired listing 1 (either
through the extend action, whose conflict check only runs for paused
listings, or through the worker `extend_post`, which never checks)
succeeds and leaves author 10 with two active listings. -/
theorem c7_extend_makes_second_active :
    (c7_db.posts.filter (fun p => p.author_id == 10 && p.status == "active")).length = 1 ∧
    (extendPostAction c7_db 1 50).2 = true ∧
    ((extendPostAction c7_db 1 50).1.posts.filter
        (fun p => p.author_id == 10 && p.status == "active")).length = 2 ∧
    (extend_post c7_db 1 50 60).2 = true ∧
    ((extend_post c7_db 1 50 60).1.posts.filter
        (fun p => p.author_id == 10 && p.status == "active")).length = 2 := by
  decide

/-- Claim C7 amended: resume and recreate are refused with a conflict
whenever the author already has another active listing, and extend is so
refused when the listing being extended is paused — each refusal leaves
the store untouched; extending a non-paused (for example expired)
listing and the worker's `extend_post` perform no conflict check. -/
theorem c7_conflict_refusals :
    (∀ db pid p msg, findPost db pid = some p →
       hasOtherActivePost db p.author_id pid = true →
       resumePost db pid msg = (db, false)) ∧
    (∀ db pid p now, findPost db pid = some p → p.status = "paused" →
       hasOtherActivePost db p.author_id pid = true →
       extendPostAction db pid now = (db, false)) ∧
    (∀ db old_pid uid new_id now msg p, findPost db old_pid = some p →
       db.posts.any (fun q => q.author_id == uid && q.status == "active") = true →
       recreatePost db old_pid uid new_id now msg = (db, false)) := by
  refine ⟨?_, ?_, ?_⟩
  · intro db pid p msg hf hact
    unfold resumePost
    rw [hf]
    simp [hact]
  · intro db pid p now hf hst hact
    unfold extendPostAction
    rw [hf]
    simp [hst, hact]
  · intro db old_pid uid new_id now msg p hf hact
    unfold recreatePost
    rw [hf]
    simp [hact]

/-- Paused listing 1 and active listing 2 of the same author, for the
refusal witness. -/
def c7w_db : DB :=
  { posts := [{ id := 1, author_id := 10, role := "driver", keys_from := ["osh"],
                keys_to := ["bazar"], status := "paused",
                channel_message_id := none, expires_at := 0 },
              { id := 2, author_id := 10, role := "driver", keys_from := ["osh"],
                keys_to := ["bazar"], status := "active",
                channel_message_id := some 8, expires_at := 100 }],
    subs := [], nlog := [] }

/-- The paused listing of the refusal witness store. -/
def c7w_p1 : Post :=
  { id := 1, author_id := 10, role := "driver", keys_from := ["osh"],
    keys_to := ["bazar"], status := "paused",
    channel_message_id := none, expires_at := 0 }

/-- Witness for C7 (amended): all three refusals fire on the concrete
store and leave it unchanged. -/
theorem c7_conflict_refusals_witness :
    resumePost c7w_db 1 none = (c7w_db, false) ∧
    extendPostAction c7w_db 1 0 = (c7w_db, false) ∧
    recreatePost c7w_db 1 10 3 0 none = (c7w_db, false) :=
  ⟨c7_conflict_refusals.1 c7w_db 1 c7w_p1 none (by decide) (by decide),
   c7_conflict_refusals.2.1 c7w_db 1 c7w_p1 0 (by decide) (by decide) (by decide),
   c7_conflict_refusals.2.2 c7w_db 1 10 3 0 none c7w_p1 (by decide) (by decide)⟩

/-! ## C8: expiration happens in exactly one tick -/

/-- Claim C8: one sweep tick acts row-wise (`tickPost`); a tick before
the deadline leaves an active listing unchanged; the first tick after the
deadline sets the status to expired; any further tick never changes the
status again (the listing is no longer selectable by the expiration
pass), and — as long as the grace period for the channel purge has not
elapsed — the second tick leaves the whole row unchanged. -/
theorem c8_sweep_expires_once :
    (∀ db now, (check_expired_posts db now).posts = db.posts.map (tickPost now)) ∧
    (∀ (p : Post) (t0 : Int), p.status = "active" → ¬ p.expires_at < t0 →
       tickPost t0 p = p) ∧
    (∀ (p : Post) (t1 t2 : Int), p.status = "active" → p.expires_at < t1 →
       (tickPost t1 p).status = "expired" ∧
       (tickPost t2 (tickPost t1 p)).status = "expired" ∧
       (t2 ≤ p.expires_at + 15 → tickPost t2 (tickPost t1 p) = tickPost t1 p)) := by
  have hexpired : ∀ (t : Int) (q : Post), q.status = "expired" →
      (tickPost t q).status = "expired" ∧ (tickPost t q).expires_at = q.expires_at := by
    intro t q hq
    unfold tickPost expireStep purgeStep
    simp only [hq]
    split <;> split <;> simp_all
  refine ⟨?_, ?_, ?_⟩
  · intro db now
    rw [check_expired_posts, List.map_map]
    rfl
  · intro p t0 hs hlt
    unfold tickPost expireStep purgeStep
    simp [hs, hlt]
  · intro p t1 t2 hs hlt
    have h1 : tickPost t1 p = purgeStep t1 { p with status := "expired" } := by
      unfold tickPost expireStep
      simp [hs, hlt]
    have hst1 : (tickPost t1 p).status = "expired" := by
      rw [h1]
      unfold purgeStep
      split <;> rfl
    have hexp1 : (tickPost t1 p).expires_at = p.expires_at := by
      rw [h1]
      unfold purgeStep
      split <;> rfl
    refine ⟨hst1, (hexpired t2 (tickPost t1 p) hst1).1, ?_⟩
    intro hgrace
    have hfix : ∀ (t : Int) (q : Post), q.status = "expired" →
        ¬ q.expires_at < t - 15 → tickPost t q = q := by
      intro t q hq hq15
      unfold tickPost expireStep purgeStep
      simp [hq, hq15]
    exact hfix t2 (tickPost t1 p) hst1 (by rw [hexp1]; omega)

/-- Witness for C8: a listing with deadline 10, swept at times 5 (before
the deadline), 20 and 24 (both inside the grace window). -/
theorem c8_sweep_expires_once_witness :
    tickPost 5 { id := 1, author_id := 10, role := "driver", keys_from := ["osh"],
                 keys_to := ["bazar"], status := "active",
                 channel_message_id := some 9, expires_at := 10 } =
      { id := 1, author_id := 10, role := "driver", keys_from := ["osh"],
        keys_to := ["bazar"], status := "active",
        channel_message_id := some 9, expires_at := 10 } ∧
    (tickPost 20 { id := 1, author_id := 10, role := "driver", keys_from := ["osh"],
                   keys_to := ["bazar"], status := "active",
                   channel_message_id := some 9, expires_at := 10 }).status = "expired" ∧
    tickPost 24
        (tickPost 20 { id := 1, author_id := 10, role := "driver", keys_from := ["osh"],
                       keys_to := ["bazar"], status := "active",
                       channel_message_id := some 9, expires_at := 10 }) =
      tickPost 20 { id := 1, author_id := 10, role := "driver", keys_from := ["osh"],
                    keys_to := ["bazar"], status := "active",
                    channel_message_id := some 9, expires_at := 10 } := by
  refine ⟨c8_sweep_expires_once.2.1 _ 5 rfl (by decide), ?_, ?_⟩
  · exact (c8_sweep_expires_once.2.2 _ 20 24 rfl (by decide)).1
  · exact (c8_sweep_expires_once.2.2 _ 20 24 rfl (by decide)).2.2 (by decide)

/-! ## C6: delete on taken and on already-deleted listings -/

/-- Store with one already-deleted listing whose author received a
ledger entry about another listing. -/
def c6_db : DB :=
  { posts := [{ id := 1, author_id := 10, role := "driver", keys_from := ["osh"],
                keys_to := ["bazar"], status := "deleted",
                channel_message_id := none, expires_at := 0 }],
    subs := [],
    nlog := [{ post_id := 2, recipient_id := 10,
               notification_message_id := some 6,
               recipient_telegram_id := some 100 }] }

/-- Claim C6 as stated is false on its second half: deleting the
already-deleted listing 1 is not a no-op — it re-runs the ledger
cleanup and removes the entry its author had received about listing 2,
so the state changes. -/
theorem c6_delete_deleted_not_noop :
    (findPost c6_db 1).map (fun p => p.status) = some "deleted" ∧
    deletePost c6_db 1 ≠ c6_db ∧ (deletePost c6_db 1).nlog = [] := by
  decide

/-- `find?` by id commutes with mapping an id-preserving row update. -/
theorem find?_map_of_id (l : List Post) (pid : Nat) (f : Post → Post)
    (hid : ∀ q, (f q).id = q.id) :
    (l.map f).find? (fun q => q.id == pid) = (l.find? (fun q => q.id == pid)).map f := by
  induction l with
  | nil => rfl
  | cons a t ih =>
    by_cases h : (a.id == pid) = true
    · have h2 : ((f a).id == pid) = true := by rw [hid a]; exact h
      rw [List.map_cons,
        List.find?_cons_of_pos (p := fun q : Post => q.id == pid) _ h2,
        List.find?_cons_of_pos (p := fun q : Post => q.id == pid) _ h]
      rfl
    · have h2 : ¬ ((f a).id == pid) = true := by rw [hid a]; exact h
      rw [List.map_cons,
        List.find?_cons_of_neg (p := fun q : Post => q.id == pid) _ h2,
        List.find?_cons_of_neg (p := fun q : Post => q.id == pid) _ h, ih]

/-- `markDeleted` preserves the row id. -/
theorem markDeleted_id (pid : Nat) (q : Post) : (markDeleted pid q).id = q.id := by
  unfold markDeleted
  by_cases h : (q.id == pid) = true <;> simp [h]

/-- `markDeleted` is idempotent on each row. -/
theorem markDeleted_idem (pid : Nat) (q : Post) :
    markDeleted pid (markDeleted pid q) = markDeleted pid q := by
  unfold markDeleted
  by_cases h : (q.id == pid) = true <;> simp [h]

/-- Unfolding equation of `deletePost` when the row exists. -/
theorem deletePost_eq (db : DB) (pid : Nat) (p : Post)
    (h : findPost db pid = some p) :
    deletePost db pid =
      { db with
        posts := db.posts.map (markDeleted pid),
        nlog := delete_notifications_received_by_author
          (delete_notifications_for_post db.nlog pid) p.author_id } := by
  unfold deletePost
  rw [h]

/-- Unfolding equation of `deletePost` when the row is absent. -/
theorem deletePost_none (db : DB) (pid : Nat) (h : findPost db pid = none) :
    deletePost db pid = db := by
  unfold deletePost
  rw [h]

/-- Claim C6 amended: deleting a listing succeeds from any status — in
particular from `taken`, which transitions to `deleted` — and an
immediately repeated delete is a no-op (`deletePost` is idempotent);
repeating the delete does however re-run the ledger cleanup, which can
remove entries the author received in the meantime. -/
theorem c6_delete_amended :
    (∀ db pid p, findPost db pid = some p → p.status = "taken" →
       findPost (deletePost db pid) pid = some { p with status := "deleted" }) ∧
    (∀ db pid, deletePost (deletePost db pid) pid = deletePost db pid) := by
  have hfind : ∀ (db : DB) (pid : Nat) (p : Post), findPost db pid = some p →
      findPost (deletePost db pid) pid = some (markDeleted pid p) := by
    intro db pid p hf
    rw [deletePost_eq db pid p hf]
    unfold findPost at hf ⊢
    show (db.posts.map (markDeleted pid)).find? (fun q => q.id == pid) =
      some (markDeleted pid p)
    rw [find?_map_of_id db.posts pid (markDeleted pid) (markDeleted_id pid), hf]
    rfl
  constructor
  · intro db pid p hf hst
    have hpid : (p.id == pid) = true :=
      List.find?_some (p := fun q : Post => q.id == pid)
        (by unfold findPost at hf; exact hf)
    have : markDeleted pid p = { p with status := "deleted" } := by
      unfold markDeleted
      rw [if_pos hpid]
    rw [hfind db pid p hf, this]
  · intro db pid
    cases hf : findPost db pid with
    | none =>
      rw [deletePost_none db pid hf]
      exact deletePost_none db pid hf
    | some p =>
      have hpid : (p.id == pid) = true :=
        List.find?_some (p := fun q : Post => q.id == pid)
          (by unfold findPost at hf; exact hf)
      have haut : (markDeleted pid p).author_id = p.author_id := by
        unfold markDeleted
        rw [if_pos hpid]
      rw [deletePost_eq db pid p hf,
          deletePost_eq _ pid (markDeleted pid p) (by
            rw [← deletePost_eq db pid p hf]
            exact hfind db pid p hf)]
      simp only [haut]
      cases db with
      | mk posts subs nlog =>
        simp only [DB.mk.injEq]
        refine ⟨?_, trivial, ?_⟩
        · rw [List.map_map]
          exact List.map_congr_left (fun a _ => markDeleted_idem pid a)
        · unfold delete_notifications_received_by_author delete_notifications_for_post
          simp only [List.filter_filter]
          exact List.filter_congr (fun e _ => by
            cases h1 : e.post_id == pid <;> cases h2 : e.recipient_id == p.author_id <;>
              simp [h1, h2])

/-- Store with one taken listing for the amended-C6 witness. -/
def c6w_db : DB :=
  { posts := [{ id := 1, author_id := 10, role := "driver", keys_from := ["osh"],
                keys_to := ["bazar"], status := "taken",
                channel_message_id := some 4, expires_at := 0 }],
    subs := [], nlog := [] }

/-- Witness for C6 (amended): deleting the taken listing 1 marks it
deleted, and repeating the delete changes nothing. -/
theorem c6_delete_amended_witness :
    findPost (deletePost c6w_db 1) 1 =
      some { id := 1, author_id := 10, role := "driver", keys_from := ["osh"],
             keys_to := ["bazar"], status := "deleted",
             channel_message_id := some 4, expires_at := 0 } ∧
    deletePost (deletePost c6w_db 1) 1 = deletePost c6w_db 1 :=
  ⟨c6_delete_amended.1 c6w_db 1
      { id := 1, author_id := 10, role := "driver", keys_from := ["osh"],
        keys_to := ["bazar"], status := "taken",
        channel_message_id := some 4, expires_at := 0 } (by decide) rfl,
   c6_delete_amended.2 c6w_db 1⟩

/-! ## C10: properties of the key extractor -/

/-- `List.contains` agrees with membership for lawful `BEq`. -/
theorem contains_true_iff {α : Type} [BEq α] [LawfulBEq α] (l : List α) (x : α) :
    l.contains x = true ↔ x ∈ l := by
  simp [List.contains, List.elem_iff]

set_option maxRecDepth 4096

/-- Every lowercase image of a letter of the class is a lowercase letter
of the class, and never whitespace. -/
theorem routeLetters_lower_ok :
    ∀ c ∈ routeLetters,
      isLowerRouteLetter (pyLower c) = true ∧ isPySpace (pyLower c) = false := by
  decide

/-- Lowercasing fixes whitespace characters. -/
theorem spaceChars_fixed : ∀ c ∈ pySpaceChars, pyLower c = c := by decide

/-- Unfolding equation of the de-duplication loop. -/
theorem dedupKeysAux_cons_eq (k : String) (ks seen : List String) :
    dedupKeysAux (k :: ks) seen =
      if seen.contains k then dedupKeysAux ks seen
      else k :: dedupKeysAux ks (k :: seen) := rfl

/-- Membership in `dedupKeysAux`: the keys of the input not yet seen. -/
theorem mem_dedupKeysAux : ∀ (ks seen : List String) (y : String),
    y ∈ dedupKeysAux ks seen ↔ (y ∈ ks ∧ y ∉ seen) := by
  intro ks
  induction ks with
  | nil => intro seen y; simp [dedupKeysAux]
  | cons k t ih =>
    intro seen y
    rw [dedupKeysAux_cons_eq]
    by_cases hk : k ∈ seen
    · rw [if_pos ((contains_true_iff seen k).mpr hk), ih seen y]
      simp only [List.mem_cons]
      by_cases hyk : y = k
      · subst hyk
        simp [hk]
      · simp [hyk]
    · rw [if_neg (fun hc => hk ((contains_true_iff seen k).mp hc))]
      simp only [List.mem_cons, ih (k :: seen) y]
      by_cases hyk : y = k
      · subst hyk
        simp [hk]
      · simp [hyk]

/-- `dedupKeysAux` returns a duplicate-free list. -/
theorem nodup_dedupKeysAux : ∀ (ks seen : List String), (dedupKeysAux ks seen).Nodup := by
  intro ks
  induction ks with
  | nil => intro seen; simp [dedupKeysAux]
  | cons k t ih =>
    intro seen
    rw [dedupKeysAux_cons_eq]
    split
    · exact ih seen
    · rw [List.nodup_cons]
      refine ⟨fun hmem => ?_, ih (k :: seen)⟩
      exact ((mem_dedupKeysAux t (k :: seen) k).mp hmem).2 (List.mem_cons_self k seen)

/-- `dedupKeysAux` is a sublist of its input (order is preserved). -/
theorem sublist_dedupKeysAux : ∀ (ks seen : List String),
    List.Sublist (dedupKeysAux ks seen) ks := by
  intro ks
  induction ks with
  | nil => intro seen; simp [dedupKeysAux]
  | cons k t ih =>
    intro seen
    rw [dedupKeysAux_cons_eq]
    split
    · exact (ih seen).cons k
    · exact (ih (k :: seen)).cons₂ k

/-- `dedupKeysAux` only depends on the membership of the seen set. -/
theorem dedupKeysAux_seen_congr : ∀ (ks s1 s2 : List String),
    (∀ y, y ∈ s1 ↔ y ∈ s2) → dedupKeysAux ks s1 = dedupKeysAux ks s2 := by
  intro ks
  induction ks with
  | nil => intro s1 s2 h; rfl
  | cons k t ih =>
    intro s1 s2 h
    rw [dedupKeysAux_cons_eq, dedupKeysAux_cons_eq]
    have hc : s1.contains k = s2.contains k := by
      by_cases hm : k ∈ s1
      · rw [(contains_true_iff s1 k).mpr hm, (contains_true_iff s2 k).mpr ((h k).mp hm)]
      · have h2 : k ∉ s2 := fun hx => hm ((h k).mpr hx)
        have e1 : s1.contains k = false := by
          cases hb : s1.contains k
          · rfl
          · exact absurd ((contains_true_iff s1 k).mp hb) hm
        have e2 : s2.contains k = false := by
          cases hb : s2.contains k
          · rfl
          · exact absurd ((contains_true_iff s2 k).mp hb) h2
        rw [e1, e2]
    rw [hc]
    split
    · exact ih s1 s2 h
    · rw [ih (k :: s1) (k :: s2) (fun y => by simp [List.mem_cons, h y])]

/-- Seeding the seen set with `k` is the same as filtering `k` out of the
rest: the loop keeps the first occurrence only. -/
theorem dedupKeysAux_filter : ∀ (ks seen : List String) (k : String),
    dedupKeysAux ks (k :: seen) = dedupKeysAux (ks.filter (fun y => !(y == k))) seen := by
  intro ks
  induction ks with
  | nil => intro seen k; rfl
  | cons a t ih =>
    intro seen k
    by_cases hak : a = k
    · subst hak
      have h1 : (a :: seen).contains a = true :=
        (contains_true_iff (a :: seen) a).mpr (List.mem_cons_self a seen)
      have h2 : (!(a == a)) = false := by simp
      rw [dedupKeysAux_cons_eq, if_pos h1, List.filter_cons, h2]
      simp only [Bool.false_eq_true, if_false]
      exact ih seen a
    · have hcons : (k :: seen).contains a = seen.contains a := by
        rw [List.contains_cons]
        have hne : (a == k) = false := by simp [hak]
        rw [hne]
        simp
      have hkeep : (!(a == k)) = true := by simp [hak]
      rw [List.filter_cons, hkeep]
      simp only [if_true]
      by_cases has : a ∈ seen
      · have ht : seen.contains a = true := (contains_true_iff seen a).mpr has
        rw [dedupKeysAux_cons_eq, if_pos (hcons.trans ht),
            dedupKeysAux_cons_eq, if_pos ht]
        exact ih seen k
      · have hf : seen.contains a = false := by
          cases hb : seen.contains a
          · rfl
          · exact absurd ((contains_true_iff seen a).mp hb) has
        have hf2 : (k :: seen).contains a = false := hcons.trans hf
        rw [dedupKeysAux_cons_eq, if_neg (by rw [hf2]; simp),
            dedupKeysAux_cons_eq, if_neg (by rw [hf]; simp)]
        rw [dedupKeysAux_seen_congr t (a :: k :: seen) (k :: a :: seen)
              (fun y => by
                simp only [List.mem_cons]
                tauto)]
        rw [ih (a :: seen) k]

/-- First-seen recurrence of the de-duplication loop. -/
theorem dedupKeys_cons (x : String) (xs : List String) :
    dedupKeys (x :: xs) = x :: dedupKeys (xs.filter (fun y => !(y == x))) := by
  unfold dedupKeys
  rw [dedupKeysAux_cons_eq, if_neg (by simp), dedupKeysAux_filter xs [] x]

/-- Unfolding equation of the splitter on the empty list. -/
theorem splitWSAux_nil_eq (acc : List Char) :
    splitWSAux [] acc = if acc.isEmpty then [] else [acc.reverse] := rfl

/-- Unfolding equation of the splitter on a cons cell. -/
theorem splitWSAux_cons_eq (c : Char) (cs acc : List Char) :
    splitWSAux (c :: cs) acc =
      if isPySpace c then
        if acc.isEmpty then splitWSAux cs []
        else acc.reverse :: splitWSAux cs []
      else splitWSAux cs (c :: acc) := rfl

/-- Every character of every word split off by `splitWSAux` comes from
the input (or the accumulator) and is not whitespace. -/
theorem splitWSAux_chars : ∀ (cs acc : List Char) (w : List Char) (c : Char),
    (∀ d ∈ acc, isPySpace d = false) → w ∈ splitWSAux cs acc → c ∈ w →
    (c ∈ cs ∨ c ∈ acc) ∧ isPySpace c = false := by
  intro cs
  induction cs with
  | nil =>
    intro acc w c hacc hw hc
    rw [splitWSAux_nil_eq] at hw
    by_cases he : acc.isEmpty = true
    · rw [if_pos he] at hw
      exact absurd hw (List.not_mem_nil w)
    · rw [if_neg he] at hw
      have hww : w = acc.reverse := by simpa using hw
      subst hww
      have hcacc : c ∈ acc := by simpa using hc
      exact ⟨Or.inr hcacc, hacc c hcacc⟩
  | cons a t ih =>
    intro acc w c hacc hw hc
    rw [splitWSAux_cons_eq] at hw
    by_cases hsp : isPySpace a = true
    · rw [if_pos hsp] at hw
      by_cases he : acc.isEmpty = true
      · rw [if_pos he] at hw
        rcases ih [] w c (by simp) hw hc with ⟨hin | hin, hns⟩
        · exact ⟨Or.inl (List.mem_cons_of_mem a hin), hns⟩
        · exact absurd hin (List.not_mem_nil c)
      · rw [if_neg he] at hw
        rcases List.mem_cons.mp hw with hww | hw2
        · subst hww
          have hcacc : c ∈ acc := by simpa using hc
          exact ⟨Or.inr hcacc, hacc c hcacc⟩
        · rcases ih [] w c (by simp) hw2 hc with ⟨hin | hin, hns⟩
          · exact ⟨Or.inl (List.mem_cons_of_mem a hin), hns⟩
          · exact absurd hin (List.not_mem_nil c)
    · rw [if_neg hsp] at hw
      have hsp2 : isPySpace a = false := by
        cases hb : isPySpace a
        · rfl
        · exact absurd hb hsp
      have hacc2 : ∀ d ∈ a :: acc, isPySpace d = false := by
        intro d hd
        rcases List.mem_cons.mp hd with hda | hd2
        · rw [hda]
          exact hsp2
        · exact hacc d hd2
      rcases ih (a :: acc) w c hacc2 hw hc with ⟨hin | hin, hns⟩
      · exact ⟨Or.inl (List.mem_cons_of_mem a hin), hns⟩
      · rcases List.mem_cons.mp hin with hca | hin2
        · subst hca
          exact ⟨Or.inl (List.mem_cons_self c t), hns⟩
        · exact ⟨Or.inr hin2, hns⟩

/-- After the regex substitution and lowercasing, every character is
whitespace or a lowercase letter of the class. -/
theorem clean_lower_char (c0 : Char) :
    isPySpace (pyLower (cleanChar c0)) = true ∨
    (isLowerRouteLetter (pyLower (cleanChar c0)) = true ∧
     isPySpace (pyLower (cleanChar c0)) = false) := by
  unfold cleanChar
  by_cases h1 : (isRouteLetter c0 || isPySpace c0) = true
  · rw [if_pos h1]
    rcases Bool.or_eq_true_iff.mp h1 with h | h
    · exact Or.inr (routeLetters_lower_ok c0 ((contains_true_iff routeLetters c0).mp h))
    · left
      rw [spaceChars_fixed c0 ((contains_true_iff pySpaceChars c0).mp h)]
      exact h
  · rw [if_neg h1]
    left
    decide

/-- Length and alphabet of every returned key. -/
theorem generate_keys_token_chars (text : String) (k : String)
    (hk : k ∈ generate_keys text) :
    2 ≤ k.length ∧ ∀ c ∈ k.data, isLowerRouteLetter c = true ∧ isPySpace c = false := by
  unfold generate_keys dedupKeys at hk
  obtain ⟨hmem, -⟩ := (mem_dedupKeysAux _ [] k).mp hk
  rcases List.mem_map.mp hmem with ⟨w, hw, hkw⟩
  rcases List.mem_filter.mp hw with ⟨hwsplit, hlen⟩
  subst hkw
  constructor
  · exact of_decide_eq_true hlen
  · intro c hc
    have hcw : c ∈ w := hc
    unfold splitWS at hwsplit
    rcases splitWSAux_chars ((text.data.map cleanChar).map pyLower) [] w c
        (by simp) hwsplit hcw with ⟨hin | hin, hns⟩
    · rcases List.mem_map.mp hin with ⟨d, hd, hdc⟩
      rcases List.mem_map.mp hd with ⟨c0, hc0, hcd⟩
      subst hdc
      subst hcd
      rcases clean_lower_char c0 with h | h
      · rw [hns] at h
        cases h
      · exact ⟨h.1, hns⟩
    · exact absurd hin (List.not_mem_nil c)

/-- Claim C10: `generate_keys` is a total function returning the empty
list on the empty string; its output is duplicate-free, keeps exactly
the whitespace-split words of length at least 2 of the cleaned
lowercased text in first-seen order (a sublist of the word stream with
the same members, de-duplicated by the first-seen recurrence), and
every character of every key is a lowercase letter of the supported
alphabets, never whitespace and never a stripped character. -/
theorem c10_generate_keys_props :
    generate_keys "" = [] ∧
    (∀ text, (generate_keys text).Nodup) ∧
    (∀ text k, k ∈ generate_keys text →
       2 ≤ k.length ∧ ∀ c ∈ k.data, isLowerRouteLetter c = true ∧ isPySpace c = false) ∧
    (∀ x xs, dedupKeys (x :: xs) = x :: dedupKeys (xs.filter (fun y => !(y == x)))) ∧
    (∀ text, List.Sublist (generate_keys text)
       (((splitWS ((text.data.map cleanChar).map pyLower)).filter
         (fun w => 2 ≤ w.length)).map (fun w => String.mk w))) ∧
    (∀ text k, k ∈ generate_keys text ↔
       k ∈ ((splitWS ((text.data.map cleanChar).map pyLower)).filter
         (fun w => 2 ≤ w.length)).map (fun w => String.mk w)) := by
  refine ⟨by decide, ?_, generate_keys_token_chars, dedupKeys_cons, ?_, ?_⟩
  · intro text
    unfold generate_keys dedupKeys
    exact nodup_dedupKeysAux _ []
  · intro text
    unfold generate_keys dedupKeys
    exact sublist_dedupKeysAux _ []
  · intro text k
    unfold generate_keys dedupKeys
    rw [mem_dedupKeysAux]
    simp

/-- Witness for C10: the key "osh" extracted from "Osh bazar" has length
at least 2 and consists only of lowercase letters of the class. -/
theorem c10_generate_keys_props_witness :
    2 ≤ ("osh" : String).length ∧
    ∀ c ∈ ("osh" : String).data, isLowerRouteLetter c = true ∧ isPySpace c = false :=
  c10_generate_keys_props.2.2.1 "Osh bazar" "osh" (by decide)
